import Mathlib

set_option maxRecDepth 8000

/-!
Shallow embedding of the git-pair core (src/lib.rs): the marker-delimited
hook-section editor (`merge_git_pair_section`, `remove_git_pair_section`,
`is_effectively_empty`), the hook installer/remover
(`install_git_hook_in`, `remove_git_hook_in`, modelled on the hook file's
content as an `Option (List Char)` state), and the per-branch co-author
ledger operations (`add_coauthor`, `remove_coauthor`, `matches_coauthor`).
Rust strings are modelled as `List Char`; Rust byte positions returned by
`str::find` become character positions, which agree with the byte view on
the ASCII marker text the code slices at.
-/

/-- Whitespace test modelling Rust `char::is_whitespace` on the ASCII range
(the only characters `trim`/`trim_start`/`trim_end` remove in the hook and
config text this tool manipulates). -/
def isWs (c : Char) : Bool :=
  c == ' ' || c == '\t' || c == '\n' || c == '\r' || c == '\x0b' || c == '\x0c'

/-- Rust `str::trim_start`. -/
def rustTrimStart (l : List Char) : List Char := l.dropWhile isWs

/-- Rust `str::trim_end`. -/
def rustTrimEnd (l : List Char) : List Char := (l.reverse.dropWhile isWs).reverse

/-- Rust `str::trim`. -/
def rustTrim (l : List Char) : List Char := rustTrimStart (rustTrimEnd l)

/-- Rust `str::find(pat)`: position of the first occurrence of the substring
`pat`, or `none`. -/
def findSub (pat : List Char) : List Char → Option Nat
  | [] => if pat.isPrefixOf ([] : List Char) then some 0 else none
  | c :: t => if pat.isPrefixOf (c :: t) then some 0 else (findSub pat t).map (· + 1)

/-- Rust `str::contains(pat)`, as the code uses it (via `find`). -/
def containsSub (pat s : List Char) : Bool := (findSub pat s).isSome

/-- Number of positions at which `pat` occurs in `s` (used to state the
marker-duplication consequence of C10). -/
def countSub (pat s : List Char) : Nat :=
  ((List.range (s.length + 1)).filter fun i => pat.isPrefixOf (s.drop i)).length

/-- `BEGIN_MARKER` of `merge_git_pair_section` / `remove_git_pair_section`. -/
def beginMarker : List Char := "# BEGIN git-pair".data

/-- `END_MARKER` of `merge_git_pair_section` / `remove_git_pair_section`. -/
def endMarker : List Char := "# END git-pair".data

/-- The error string `merge_git_pair_section` returns when a BEGIN marker is
present without an END marker (the `MalformedHook` condition). -/
def malformedMsg : List Char :=
  "Found BEGIN marker but no END marker in existing hook".data

/-- `merge_git_pair_section` (src/lib.rs:462-520): splice the section over the
first BEGIN..END marker span when both markers are found, fail when BEGIN is
found without END, and append (with shebang handling) when no BEGIN is found.
The string pushes of the source are rendered as one concatenation in the same
order. -/
def merge_git_pair_section (existing gps : List Char) : Except (List Char) (List Char) :=
  match findSub beginMarker existing with
  | some begin_pos =>
    match findSub endMarker existing with
    | some end_pos =>
      Except.ok
        ((if (rustTrimEnd (existing.take begin_pos)).isEmpty
             && !(("#!".data).isPrefixOf existing) then "#!/bin/sh\n".data else [])
         ++ (if (rustTrimEnd (existing.take begin_pos)).isEmpty then []
             else rustTrimEnd (existing.take begin_pos) ++ ['\n'])
         ++ gps
         ++ (if (rustTrimStart (existing.drop (end_pos + endMarker.length))).isEmpty then []
             else '\n' :: rustTrimStart (existing.drop (end_pos + endMarker.length))))
    | none => Except.error malformedMsg
  | none =>
    if (rustTrim existing).isEmpty then Except.ok ("#!/bin/sh\n".data ++ gps)
    else Except.ok (rustTrimEnd existing ++ "\n\n".data ++ gps)

/-- `remove_git_pair_section` (src/lib.rs:523-558): cut the first BEGIN..END
marker span out, rejoining the trimmed sides with a single newline only when
both are non-empty; `none` when no BEGIN marker is found, and also (the
source's deliberate "don't modify" branch) when BEGIN is found without END. -/
def remove_git_pair_section (content : List Char) : Option (List Char) :=
  match findSub beginMarker content with
  | some begin_pos =>
    match findSub endMarker content with
    | some end_pos =>
      some
        ((if (rustTrimEnd (content.take begin_pos)).isEmpty then []
          else rustTrimEnd (content.take begin_pos)
               ++ (if (rustTrimStart (content.drop (end_pos + endMarker.length))).isEmpty
                   then [] else ['\n']))
         ++ (if (rustTrimStart (content.drop (end_pos + endMarker.length))).isEmpty then []
             else rustTrimStart (content.drop (end_pos + endMarker.length))))
    | none => none
  | none => none

/-- Splitting at every newline character; the pieces still carry any trailing
carriage returns.  `linesRaw` never returns `[]`. -/
def linesRaw : List Char → List (List Char)
  | [] => [[]]
  | c :: t =>
    if c = '\n' then [] :: linesRaw t
    else
      match linesRaw t with
      | [] => [[c]]
      | h :: r => (c :: h) :: r

/-- Dropping the `'\r'` of a `"\r\n"` line ending. -/
def stripCr (l : List Char) : List Char :=
  if l.getLast? = some '\r' then l.dropLast else l

/-- Rust `str::lines` semantics on the pieces of `linesRaw`: every piece that
was terminated by a newline loses a trailing `'\r'`; a final unterminated
piece is kept verbatim, and a final empty piece (the string ended with a
newline, or was empty) is dropped. -/
def rustLinesAux : List (List Char) → List (List Char)
  | [] => []
  | [l] => if l.isEmpty then [] else [l]
  | l :: rest => stripCr l :: rustLinesAux rest

/-- Rust `str::lines`. -/
def rustLines (content : List Char) : List (List Char) :=
  rustLinesAux (linesRaw content)

/-- `is_effectively_empty` (src/lib.rs:451-459): every line is, after
trimming, blank or a `#` comment (the source's early-return loop is the
`List.all` of its per-line test). -/
def is_effectively_empty (content : List Char) : Bool :=
  (rustLines content).all fun line =>
    (rustTrim line).isEmpty || ['#'].isPrefixOf (rustTrim line)

/-- The generated hook section (the raw string literal of
`install_git_hook_in`, src/lib.rs:576-601). -/
def gitPairSection : List Char :=
  ("# BEGIN git-pair\n# git-pair hook to automatically add co-authors\n\nCOMMIT_MSG_FILE=$1\nCOMMIT_SOURCE=$2\n\n# Only add co-authors for regular commits (not merges, rebases, etc.)\nif [ -z \"$COMMIT_SOURCE\" ] || [ \"$COMMIT_SOURCE\" = \"message\" ]; then\n  # Check if co-authors are already present\n  if ! grep -q \"Co-authored-by:\" \"$COMMIT_MSG_FILE\"; then\n    # Get current branch and config file\n    CURRENT_BRANCH=$(git branch --show-current)\n    SAFE_BRANCH=$(echo \"$CURRENT_BRANCH\" | sed \x27s/[/\\\\:]/_/g\x27)\n    CONFIG_FILE=\".git/git-pair/config-$SAFE_BRANCH\"\n\n    # Add co-authors from branch-specific config if it exists\n    if [ -f \"$CONFIG_FILE\" ]; then\n      COAUTHORS=$(grep \x27^Co-authored-by:\x27 \"$CONFIG_FILE\")\n      if [ -n \"$COAUTHORS\" ]; then\n        echo \"\" >> \"$COMMIT_MSG_FILE\"\n        echo \"$COAUTHORS\" >> \"$COMMIT_MSG_FILE\"\n      fi\n    fi\n  fi\nfi\n# END git-pair").data

/-- `remove_git_hook_in` (src/lib.rs:254-279), on the hook file's state:
`none` models an absent file.  The result pairs the post-state of the file
with the returned `Result` (filesystem errors are not modelled; the function
itself never constructs an error). -/
def remove_git_hook_in (hook : Option (List Char)) :
    Option (List Char) × Except (List Char) Unit :=
  match hook with
  | none => (none, Except.ok ())
  | some content =>
    match remove_git_pair_section content with
    | some newContent =>
      if is_effectively_empty newContent then (none, Except.ok ())
      else (some newContent, Except.ok ())
    | none => (some content, Except.ok ())

/-- `install_git_hook_in` (src/lib.rs:560-622), on the hook file's state:
read the file (or `""` when absent), merge the generated section, and write
the result; a merge error is propagated with no write (the permission-bit
step is outside the content model). -/
def install_git_hook_in (hook : Option (List Char)) :
    Option (List Char) × Except (List Char) Unit :=
  match merge_git_pair_section (hook.getD []) gitPairSection with
  | Except.ok newContent => (some newContent, Except.ok ())
  | Except.error e => (hook, Except.error e)

/-- The `"Co-authored-by:"` line test of the ledger code. -/
def caMarker : List Char := "Co-authored-by:".data

/-- The serialized co-author record of `add_coauthor`:
`format!("Co-authored-by: {} {} <{}>\n", name, surname, email)` with
`full_name = format!("{} {}", name, surname)`. -/
def coauthorLine (name surname email : List Char) : List Char :=
  "Co-authored-by: ".data ++ (name ++ " ".data ++ surname) ++ " <".data ++ email
    ++ ">\n".data

/-- Outcome channel of `add_coauthor`: `added` is the success path that
appends and then re-installs the hook (`update_commit_template`);
`alreadyExists` is the early `Ok("... already exists ...")` return that
performs neither. -/
inductive AddOutcome where
  | added
  | alreadyExists
deriving DecidableEq, Repr

/-- `add_coauthor` (src/lib.rs:187-226) on the branch config file's content:
the duplicate test is `existing_content.contains(coauthor_line.trim())`. -/
def add_coauthor (existing_content name surname email : List Char) :
    List Char × AddOutcome :=
  if containsSub (rustTrim (coauthorLine name surname email)) existing_content then
    (existing_content, AddOutcome.alreadyExists)
  else
    (existing_content ++ coauthorLine name surname email, AddOutcome.added)

/-- The two-line header the ledger is created with (`init_pair_config`) and
rebuilt with (`remove_coauthor`). -/
def initial_config (branch : List Char) : List Char :=
  "# git-pair configuration file for branch \x27".data ++ branch
    ++ "\x27\n# Co-authors will be listed here\n".data

/-- The record lines of a ledger: the lines starting with
`"Co-authored-by:"`. -/
def coauthor_lines_of (content : List Char) : List (List Char) :=
  (rustLines content).filter fun line => caMarker.isPrefixOf line

/-- `matches_coauthor` (src/lib.rs:379-394): case-insensitive substring match
on the whole serialized line, or a case-sensitive substring match. -/
def matches_coauthor (coauthor_line ident : List Char) : Bool :=
  containsSub (ident.map Char.toLower) (coauthor_line.map Char.toLower)
    || containsSub ident coauthor_line

/-- The reconstructed config content `remove_coauthor` writes back: header
then each remaining record followed by a newline. -/
def rebuild_config (branch : List Char) (coauthors : List (List Char)) : List Char :=
  initial_config branch ++ (coauthors.map (· ++ ['\n'])).flatten

/-- The not-found error of `remove_coauthor`. -/
def notFoundMsg (ident branch : List Char) : List Char :=
  "Co-author \x27".data ++ ident ++ "\x27 not found on branch \x27".data ++ branch
    ++ "\x27. Use \x27git-pair status\x27 to see current co-authors.".data

/-- The alias-resolved not-found error of `remove_coauthor`. -/
def aliasNotFoundMsg (ident name email branch : List Char) : List Char :=
  "Co-author matching alias \x27".data ++ ident ++ "\x27 (".data ++ name
    ++ " <".data ++ email ++ ">) not found on branch \x27".data ++ branch ++ "\x27".data

/-- `remove_coauthor` (src/lib.rs:287-377) on the config file's content, with
the global roster passed in as the `(alias, name, email)` triples
`get_global_roster` yields.  `retain` is `List.filter` with the negated
predicate; the alias fallback runs only when the first pass removed nothing,
and then filters the (unchanged) record list by containment of the resolved
name or email.  Success carries the rebuilt content and the removed count. -/
def remove_coauthor (existing_content ident branch : List Char)
    (roster : List (List Char × List Char × List Char)) :
    Except (List Char) (List Char × Nat) :=
  let coauthor_lines := coauthor_lines_of existing_content
  let original_count := coauthor_lines.length
  let kept := coauthor_lines.filter fun line => !(matches_coauthor line ident)
  if kept.length = original_count then
    match roster.find? (fun r => r.1 == ident) with
    | some (_, name, email) =>
      let kept2 := kept.filter fun line =>
        !(containsSub name line) && !(containsSub email line)
      if kept2.length = original_count then
        Except.error (aliasNotFoundMsg ident name email branch)
      else
        Except.ok (rebuild_config branch kept2, original_count - kept2.length)
    | none => Except.error (notFoundMsg ident branch)
  else
    Except.ok (rebuild_config branch kept, original_count - kept.length)

/-- The record list after `remove_coauthor`'s first `retain` pass (direct
matching by `matches_coauthor`). -/
def kept_direct (content ident : List Char) : List (List Char) :=
  (coauthor_lines_of content).filter fun line => !(matches_coauthor line ident)

/-- The record list after `remove_coauthor`'s alias fallback `retain` pass,
which filters by containment of the roster-resolved name or email. -/
def kept_alias (content ident name email : List Char) : List (List Char) :=
  (kept_direct content ident).filter fun line =>
    !(containsSub name line) && !(containsSub email line)

/-- Whether an `Except` is an error (models `Result::is_err`). -/
def isErrE {ε α : Type} : Except ε α → Bool
  | Except.error _ => true
  | Except.ok _ => false

/-! ## Basic facts about `isPrefixOf` and `findSub` -/

theorem preNilAny (l : List Char) : ([] : List Char).isPrefixOf l = true := by
  cases l <;> rfl

theorem preConsNil (a : Char) (as : List Char) :
    (a :: as).isPrefixOf ([] : List Char) = false := rfl

theorem preCC (a b : Char) (as bs : List Char) :
    (a :: as).isPrefixOf (b :: bs) = (a == b && as.isPrefixOf bs) := rfl

theorem pre_refl (l : List Char) : l.isPrefixOf l = true := by
  induction l with
  | nil => rfl
  | cons c t ih => rw [preCC, ih]; simp

theorem pre_extend {p u : List Char} (v : List Char) (h : p.isPrefixOf u = true) :
    p.isPrefixOf (u ++ v) = true := by
  induction p generalizing u with
  | nil => exact preNilAny _
  | cons a as ih =>
    cases u with
    | nil => rw [preConsNil] at h; cases h
    | cons b bs =>
      rw [preCC] at h
      rw [List.cons_append, preCC]
      rcases Bool.and_eq_true_iff.mp h with ⟨h1, h2⟩
      rw [h1, ih h2]
      rfl

/-- No occurrence of a newline-free pattern can straddle a newline: if `p` is
not a prefix of `u`, it is not a prefix of `u ++ '\n' :: v` either. -/
theorem pre_nl {p : List Char} (hnl : '\n' ∉ p) :
    ∀ u v, p.isPrefixOf u = false → p.isPrefixOf (u ++ '\n' :: v) = false := by
  intro u
  induction u generalizing p with
  | nil =>
    intro v h
    cases p with
    | nil => rw [preNilAny] at h; cases h
    | cons a as =>
      have ha : (a == '\n') = false := by
        cases hq : a == '\n'
        · rfl
        · exact absurd (by simp [eq_of_beq hq]) hnl
      rw [List.nil_append, preCC, ha]
      rfl
  | cons b bs ih =>
    intro v h
    cases p with
    | nil => rw [preNilAny] at h; cases h
    | cons a as =>
      rw [List.cons_append, preCC]
      rw [preCC] at h
      cases hab : a == b
      · rfl
      · have has : as.isPrefixOf bs = false := by simpa [hab] using h
        have hnl' : '\n' ∉ as := fun m => hnl (List.mem_cons_of_mem _ m)
        rw [ih hnl' v has]
        rfl

theorem findSub_nil (pat : List Char) :
    findSub pat [] = if pat.isPrefixOf ([] : List Char) then some 0 else none := rfl

theorem findSub_cons (pat : List Char) (c : Char) (t : List Char) :
    findSub pat (c :: t) =
      if pat.isPrefixOf (c :: t) then some 0 else (findSub pat t).map (· + 1) := rfl

theorem findSub_cons_none {pat : List Char} {c : Char} {t : List Char}
    (h : findSub pat (c :: t) = none) :
    pat.isPrefixOf (c :: t) = false ∧ findSub pat t = none := by
  rw [findSub_cons] at h
  cases hp : pat.isPrefixOf (c :: t)
  · rw [hp] at h
    simp only [Bool.false_eq_true, if_false, Option.map_eq_none'] at h
    exact ⟨rfl, h⟩
  · rw [hp] at h
    simp at h

/-- First-occurrence search distributes over a newline barrier when the
pattern contains no newline and does not occur in the left part. -/
theorem findSub_append_nl {pat : List Char} (hnl : '\n' ∉ pat) :
    ∀ (xs ys : List Char), findSub pat xs = none →
      findSub pat (xs ++ '\n' :: ys) =
        (findSub pat ('\n' :: ys)).map (· + xs.length) := by
  intro xs
  induction xs with
  | nil =>
    intro ys _
    rw [List.nil_append]
    cases hf : findSub pat ('\n' :: ys) <;> simp [hf]
  | cons c t ih =>
    intro ys h
    obtain ⟨h1, h2⟩ := findSub_cons_none h
    have h3 : pat.isPrefixOf ((c :: t) ++ '\n' :: ys) = false := pre_nl hnl _ _ h1
    rw [List.cons_append, findSub_cons]
    rw [List.cons_append] at h3
    rw [h3]
    simp only [Bool.false_eq_true, if_false]
    rw [ih ys h2]
    cases findSub pat ('\n' :: ys) <;> simp
    omega

/-- If the pattern does not occur in `xs ++ ys` it does not occur in `xs`. -/
theorem findSub_append_none {pat : List Char} :
    ∀ {xs ys : List Char}, findSub pat (xs ++ ys) = none → findSub pat xs = none := by
  intro xs
  induction xs with
  | nil =>
    intro ys h
    cases pat with
    | nil =>
      exfalso
      cases ys with
      | nil => rw [List.nil_append, findSub_nil, preNilAny] at h; simp at h
      | cons b bs => rw [List.nil_append, findSub_cons, preNilAny] at h; simp at h
    | cons a as => rfl
  | cons c t ih =>
    intro ys h
    rw [List.cons_append] at h
    obtain ⟨h1, h2⟩ := findSub_cons_none h
    rw [findSub_cons]
    have hp : pat.isPrefixOf (c :: t) = false := by
      cases hq : pat.isPrefixOf (c :: t)
      · rfl
      · have := pre_extend ys hq
        rw [List.cons_append] at this
        rw [this] at h1
        cases h1
    rw [hp]
    simp only [Bool.false_eq_true, if_false, Option.map_eq_none']
    exact ih h2

/-- An occurrence anywhere makes `findSub` succeed. -/
theorem findSub_isSome_of_drop {pat : List Char} :
    ∀ (s : List Char) (i : Nat), pat.isPrefixOf (s.drop i) = true →
      (findSub pat s).isSome = true := by
  intro s
  induction s with
  | nil =>
    intro i h
    rw [List.drop_nil] at h
    cases pat with
    | nil => rfl
    | cons a as => rw [preConsNil] at h; cases h
  | cons c t ih =>
    intro i h
    cases i with
    | zero =>
      rw [List.drop_zero] at h
      rw [findSub_cons, h]
      rfl
    | succ j =>
      have hj := ih j (by simpa using h)
      rw [findSub_cons]
      cases hp : pat.isPrefixOf (c :: t)
      · simp only [Bool.false_eq_true, if_false, Option.isSome_map']
        exact hj
      · rfl

/-! ## Facts about trimming -/

theorem dropWhile_ex (p : Char → Bool) (l : List Char) : ∃ s, s ++ l.dropWhile p = l := by
  induction l with
  | nil => exact ⟨[], rfl⟩
  | cons c t ih =>
    cases hc : p c
    · exact ⟨[], by simp [List.dropWhile_cons, hc]⟩
    · obtain ⟨s, hs⟩ := ih
      exact ⟨c :: s, by simp [List.dropWhile_cons, hc, hs]⟩

theorem dropWhile_idem (p : Char → Bool) (l : List Char) :
    (l.dropWhile p).dropWhile p = l.dropWhile p := by
  induction l with
  | nil => rfl
  | cons c t ih =>
    cases hc : p c
    · simp [List.dropWhile_cons, hc]
    · simp [List.dropWhile_cons, hc, ih]

/-- `trim_end` yields a front segment of its input. -/
theorem rustTrimEnd_front (l : List Char) : ∃ t, rustTrimEnd l ++ t = l := by
  obtain ⟨s, hs⟩ := dropWhile_ex isWs l.reverse
  refine ⟨s.reverse, ?_⟩
  have h := congrArg List.reverse hs
  simpa [rustTrimEnd] using h

theorem rustTrimEnd_snoc_ws {l : List Char} {c : Char} (h : isWs c = true) :
    rustTrimEnd (l ++ [c]) = rustTrimEnd l := by
  simp [rustTrimEnd, List.dropWhile_cons, h]

theorem rustTrimEnd_snoc_not_ws {l : List Char} {c : Char} (h : isWs c = false) :
    rustTrimEnd (l ++ [c]) = l ++ [c] := by
  simp [rustTrimEnd, List.dropWhile_cons, h]

theorem rustTrimEnd_idem (l : List Char) : rustTrimEnd (rustTrimEnd l) = rustTrimEnd l := by
  simp [rustTrimEnd, dropWhile_idem]

theorem rustTrimStart_cons_not_ws {c : Char} {l : List Char} (h : isWs c = false) :
    rustTrimStart (c :: l) = c :: l := by
  simp [rustTrimStart, List.dropWhile_cons, h]

/-- When the whole trim of `l` is non-empty, so is its `trim_end`. -/
theorem rustTrimEnd_ne_nil {l : List Char} (h : (rustTrim l).isEmpty = false) :
    (rustTrimEnd l).isEmpty = false := by
  cases he : rustTrimEnd l with
  | nil => rw [rustTrim, he] at h; simp [rustTrimStart] at h
  | cons a as => rfl

/-! ## Facts about line splitting -/

theorem linesRaw_ne_nil (s : List Char) : linesRaw s ≠ [] := by
  cases s with
  | nil => simp [linesRaw]
  | cons c t =>
    simp only [linesRaw]
    split
    · simp
    · split <;> simp

theorem linesRaw_no_nl {xs : List Char} (h : '\n' ∉ xs) : linesRaw xs = [xs] := by
  induction xs with
  | nil => rfl
  | cons c t ih =>
    have hc : ¬ c = '\n' := fun e => h (by simp [e])
    have ht : '\n' ∉ t := fun m => h (List.mem_cons_of_mem _ m)
    simp [linesRaw, hc, ih ht]

theorem linesRaw_append_nl {xs : List Char} (h : '\n' ∉ xs) (ys : List Char) :
    linesRaw (xs ++ '\n' :: ys) = xs :: linesRaw ys := by
  induction xs with
  | nil => simp [linesRaw]
  | cons c t ih =>
    have hc : ¬ c = '\n' := fun e => h (by simp [e])
    have ht : '\n' ∉ t := fun m => h (List.mem_cons_of_mem _ m)
    rw [List.cons_append]
    simp only [linesRaw, hc, if_false]
    rw [ih ht]

theorem stripCr_snoc {l : List Char} {c : Char} (h : ¬ c = '\r') :
    stripCr (l ++ [c]) = l ++ [c] := by
  simp [stripCr, List.getLast?_concat, h]

/-! ## Facts about the markers and the generated section -/

theorem nl_not_mem_beginMarker : '\n' ∉ beginMarker := by decide

theorem nl_not_mem_endMarker : '\n' ∉ endMarker := by decide

theorem gps_starts_with_begin : findSub beginMarker gitPairSection = some 0 := rfl

theorem gps_end_pos : findSub endMarker gitPairSection = some 849 := rfl

theorem gps_length : gitPairSection.length = 863 := rfl

theorem beginMarker_not_pre_nl (w : List Char) :
    beginMarker.isPrefixOf ('\n' :: w) = false := rfl

theorem endMarker_not_pre_nl (w : List Char) :
    endMarker.isPrefixOf ('\n' :: w) = false := rfl

theorem findSub_begin_cons_nl (w : List Char) :
    findSub beginMarker ('\n' :: w) = (findSub beginMarker w).map (· + 1) := by
  rw [findSub_cons, beginMarker_not_pre_nl]
  rfl

theorem findSub_end_cons_nl (w : List Char) :
    findSub endMarker ('\n' :: w) = (findSub endMarker w).map (· + 1) := by
  rw [findSub_cons, endMarker_not_pre_nl]
  rfl

/-! ## Facts about the serialized co-author record -/

theorem coauthorLine_eq (name surname email : List Char) :
    coauthorLine name surname email =
      ("Co-authored-by: ".data ++ (name ++ " ".data ++ surname) ++ " <".data ++ email
        ++ ['>']) ++ ['\n'] := by
  have h : (">\n".data : List Char) = ['>'] ++ ['\n'] := rfl
  rw [coauthorLine, h]
  simp [List.append_assoc]

theorem caMarker_not_pre_hash (l : List Char) :
    caMarker.isPrefixOf ('#' :: l) = false := rfl

theorem caMarker_pre_line (l : List Char) :
    caMarker.isPrefixOf ("Co-authored-by: ".data ++ l) = true := rfl

theorem rustTrimStart_CA (l : List Char) :
    rustTrimStart ("Co-authored-by: ".data ++ l) = "Co-authored-by: ".data ++ l := rfl

theorem rustTrim_coauthorLine (name surname email : List Char) :
    rustTrim (coauthorLine name surname email) =
      "Co-authored-by: ".data ++ (name ++ " ".data ++ surname) ++ " <".data ++ email
        ++ ['>'] := by
  rw [coauthorLine_eq, rustTrim, rustTrimEnd_snoc_ws (by decide)]
  have h1 : ("Co-authored-by: ".data ++ (name ++ " ".data ++ surname) ++ " <".data
      ++ email ++ ['>'])
      = ("Co-authored-by: ".data ++ (name ++ " ".data ++ surname) ++ " <".data ++ email)
        ++ ['>'] := by
    simp [List.append_assoc]
  rw [h1, rustTrimEnd_snoc_not_ws (by decide), ← h1]
  exact rustTrimStart_CA _

/-! ## Claim theorems -/

/-- C5: when the existing hook content has no BEGIN marker, merge appends:
empty or all-whitespace content yields the shebang line, a newline and the
section; anything else yields the content with trailing whitespace trimmed,
two newlines, and the section. -/
theorem merge_append_mode (existing gps : List Char)
    (hb : findSub beginMarker existing = none) :
    ((rustTrim existing).isEmpty = true →
      merge_git_pair_section existing gps = Except.ok ("#!/bin/sh\n".data ++ gps)) ∧
    ((rustTrim existing).isEmpty = false →
      merge_git_pair_section existing gps =
        Except.ok (rustTrimEnd existing ++ "\n\n".data ++ gps)) := by
  constructor <;> intro h <;> simp [merge_git_pair_section, hb, h]

/-- Witness for C5, the claim's own scenario: merging the section into
`"#!/bin/sh\necho hi"` keeps the existing lines unchanged and appends the
full section after a blank line. -/
theorem merge_append_mode_witness :
    merge_git_pair_section "#!/bin/sh\necho hi".data
        "# BEGIN git-pair\necho p\n# END git-pair".data =
      Except.ok "#!/bin/sh\necho hi\n\n# BEGIN git-pair\necho p\n# END git-pair".data := by
  have h := (merge_append_mode "#!/bin/sh\necho hi".data
      "# BEGIN git-pair\necho p\n# END git-pair".data (by decide)).2 (by decide)
  exact h.trans (congrArg Except.ok (by decide))

/-- C1 (amended): when the existing content has both markers, with the first
END marker at or after the first BEGIN marker, merge replaces the span from
the BEGIN marker through the END marker with the section; the text before the
BEGIN marker is trimmed of trailing whitespace and, when non-empty, followed
by exactly one newline, the text after the END marker is trimmed of leading
whitespace and, when non-empty, preceded by exactly one newline — and, the
amendment, when the before-text trims to empty and the content does not start
with `"#!"`, the output is additionally prefixed with the shebang line. -/
theorem merge_splice_replaces_span (existing gps : List Char) (b e : Nat)
    (hb : findSub beginMarker existing = some b)
    (he : findSub endMarker existing = some e) (_hbe : b ≤ e) :
    merge_git_pair_section existing gps =
      Except.ok
        ((if (rustTrimEnd (existing.take b)).isEmpty
             && !(("#!".data).isPrefixOf existing) then "#!/bin/sh\n".data else [])
         ++ (if (rustTrimEnd (existing.take b)).isEmpty then []
             else rustTrimEnd (existing.take b) ++ ['\n'])
         ++ gps
         ++ (if (rustTrimStart (existing.drop (e + endMarker.length))).isEmpty then []
             else '\n' :: rustTrimStart (existing.drop (e + endMarker.length)))) := by
  simp [merge_git_pair_section, hb, he]

/-- Witness for C1: a splice with non-empty text on both sides of the span. -/
theorem merge_splice_replaces_span_witness :
    merge_git_pair_section "A\n# BEGIN git-pair\nz\n# END git-pair\nB".data "S".data =
      Except.ok "A\nS\nB".data := by
  have h := merge_splice_replaces_span
    "A\n# BEGIN git-pair\nz\n# END git-pair\nB".data "S".data 2 21
    (by decide) (by decide) (by decide)
  exact h.trans (congrArg Except.ok (by decide))

/-- Counterexample to C1 as stated: when the text before the BEGIN marker is
empty, the code inserts a `"#!/bin/sh\n"` line that the claim's description
of the output does not contain; the claim predicts the result `"X"` here. -/
theorem merge_splice_shebang_cex :
    merge_git_pair_section "# BEGIN git-pair\n# END git-pair".data "X".data =
        Except.ok "#!/bin/sh\nX".data ∧
      ("#!/bin/sh\nX".data : List Char) ≠ "X".data := by
  exact ⟨rfl, by decide⟩

/-- C4: content with a BEGIN marker and no END marker makes merge fail with
the MalformedHook error, and the hook installer propagates that failure and
leaves the hook file unwritten. -/
theorem malformed_merge_fails_install_no_write (content gps : List Char) (b : Nat)
    (hb : findSub beginMarker content = some b)
    (he : findSub endMarker content = none) :
    merge_git_pair_section content gps = Except.error malformedMsg ∧
    install_git_hook_in (some content) = (some content, Except.error malformedMsg) := by
  constructor
  · simp [merge_git_pair_section, hb, he]
  · simp [install_git_hook_in, merge_git_pair_section, hb, he]

/-- Witness for C4. -/
theorem malformed_merge_fails_install_no_write_witness :
    merge_git_pair_section "# BEGIN git-pair".data gitPairSection =
        Except.error malformedMsg ∧
    install_git_hook_in (some "# BEGIN git-pair".data) =
      (some "# BEGIN git-pair".data, Except.error malformedMsg) :=
  malformed_merge_fails_install_no_write "# BEGIN git-pair".data gitPairSection 0
    (by decide) (by decide)

/-- C3 (amended): on content with a BEGIN marker and no END marker, strip
returns the no-section signal `none` (it does not fail), and the hook-remove
operation succeeds as a no-op, leaving the file byte-for-byte unchanged. -/
theorem malformed_strip_and_remove_noop (content : List Char) (b : Nat)
    (hb : findSub beginMarker content = some b)
    (he : findSub endMarker content = none) :
    remove_git_pair_section content = none ∧
    remove_git_hook_in (some content) = (some content, Except.ok ()) := by
  have h1 : remove_git_pair_section content = none := by
    simp [remove_git_pair_section, hb, he]
  exact ⟨h1, by simp [remove_git_hook_in, h1]⟩

/-- Witness for the amended C3. -/
theorem malformed_strip_and_remove_noop_witness :
    remove_git_pair_section "#!/bin/sh\n# BEGIN git-pair".data = none ∧
    remove_git_hook_in (some "#!/bin/sh\n# BEGIN git-pair".data) =
      (some "#!/bin/sh\n# BEGIN git-pair".data, Except.ok ()) :=
  malformed_strip_and_remove_noop "#!/bin/sh\n# BEGIN git-pair".data 10
    (by decide) (by decide)

/-- Counterexample to C3 as stated: on a hook file whose content has a BEGIN
marker but no END marker, the remove operation returns success (`Ok(())`)
with the file unchanged, not the `MalformedHook` failure the claim asserts,
because `remove_git_pair_section` signals this case with `None`. -/
theorem malformed_remove_succeeds_cex :
    remove_git_hook_in (some "# BEGIN git-pair\necho x".data) =
        (some "# BEGIN git-pair\necho x".data, Except.ok ()) ∧
      isErrE (remove_git_hook_in (some "# BEGIN git-pair\necho x".data)).2 = false :=
  ⟨rfl, rfl⟩

/-- C6: the hook-remove operation is a successful no-op when the file is
absent and when strip finds no section; it deletes the file when the stripped
content is effectively empty; otherwise it writes the stripped content
back. -/
theorem remove_hook_cases (content r : List Char) :
    remove_git_hook_in none = (none, Except.ok ()) ∧
    (remove_git_pair_section content = none →
      remove_git_hook_in (some content) = (some content, Except.ok ())) ∧
    (remove_git_pair_section content = some r → is_effectively_empty r = true →
      remove_git_hook_in (some content) = (none, Except.ok ())) ∧
    (remove_git_pair_section content = some r → is_effectively_empty r = false →
      remove_git_hook_in (some content) = (some r, Except.ok ())) := by
  refine ⟨rfl, ?_, ?_, ?_⟩
  · intro h
    simp [remove_git_hook_in, h]
  · intro h h2
    simp [remove_git_hook_in, h, h2]
  · intro h h2
    simp [remove_git_hook_in, h, h2]

/-- Witness for C6: stripping a hook that only carried the section leaves an
effectively-empty `"#!/bin/sh"`, so the file is deleted. -/
theorem remove_hook_cases_witness :
    remove_git_hook_in (some "#!/bin/sh\n# BEGIN git-pair\necho p\n# END git-pair".data) =
      (none, Except.ok ()) :=
  (remove_hook_cases "#!/bin/sh\n# BEGIN git-pair\necho p\n# END git-pair".data
    "#!/bin/sh".data).2.2.1 (by decide) (by decide)

/-- C10: merge and strip locate the markers by first occurrence anywhere,
never checking that the END marker follows the BEGIN marker: merge fails (and
strip, given a BEGIN marker, reports no section) exactly when no END marker
occurs anywhere; and on a concrete input whose only END marker precedes the
BEGIN marker, merge succeeds, splices the section between them, and leaves
the output with two BEGIN markers where the input had one. -/
theorem marker_search_first_occurrence :
    (∀ existing gps : List Char,
      isErrE (merge_git_pair_section existing gps) = true ↔
        (containsSub beginMarker existing = true ∧
          containsSub endMarker existing = false)) ∧
    (∀ content : List Char, containsSub beginMarker content = true →
      (remove_git_pair_section content = none ↔
        containsSub endMarker content = false)) ∧
    merge_git_pair_section "# END git-pair\n# BEGIN git-pair".data
        "# BEGIN git-pair\nP\n# END git-pair".data =
      Except.ok ("# END git-pair\n".data ++ "# BEGIN git-pair\nP\n# END git-pair".data
        ++ "\n# BEGIN git-pair".data) ∧
    countSub beginMarker "# END git-pair\n# BEGIN git-pair".data = 1 ∧
    countSub beginMarker ("# END git-pair\n".data
        ++ "# BEGIN git-pair\nP\n# END git-pair".data ++ "\n# BEGIN git-pair".data) = 2 := by
  refine ⟨?_, ?_, rfl, by decide, by decide⟩
  · intro existing gps
    cases hb : findSub beginMarker existing with
    | none =>
      simp only [merge_git_pair_section, hb, containsSub, Option.isSome_none]
      constructor
      · intro h
        exfalso
        rcases hi : (rustTrim existing).isEmpty with _ | _ <;>
          simp [hi, isErrE] at h
      · rintro ⟨h, -⟩
        cases h
    | some b =>
      cases he : findSub endMarker existing with
      | none => simp [merge_git_pair_section, hb, he, containsSub, isErrE]
      | some e => simp [merge_git_pair_section, hb, he, containsSub, isErrE]
  · intro content hc
    obtain ⟨b, hb⟩ : ∃ b, findSub beginMarker content = some b := by
      cases hf : findSub beginMarker content with
      | none => rw [containsSub, hf] at hc; cases hc
      | some b => exact ⟨b, rfl⟩
    cases he : findSub endMarker content with
    | none => simp [remove_git_pair_section, hb, he, containsSub]
    | some e => simp [remove_git_pair_section, hb, he, containsSub]

/-- Witness for C10: on BEGIN-without-END content the merge is an error. -/
theorem marker_search_first_occurrence_witness :
    isErrE (merge_git_pair_section "A\n# BEGIN git-pair\nB".data "S".data) = true :=
  (marker_search_first_occurrence.1 "A\n# BEGIN git-pair\nB".data "S".data).mpr
    (by decide)

/-- C8: `is_effectively_empty` is true exactly when every line, after
trimming, is blank or starts with `'#'`; with the claim's concrete cases. -/
theorem is_effectively_empty_characterization :
    (∀ content : List Char, is_effectively_empty content = true ↔
      ∀ line ∈ rustLines content, (rustTrim line).isEmpty = true ∨
        ['#'].isPrefixOf (rustTrim line) = true) ∧
    (∀ content line, line ∈ rustLines content → (rustTrim line).isEmpty = false →
      ['#'].isPrefixOf (rustTrim line) = false → is_effectively_empty content = false) ∧
    is_effectively_empty [] = true ∧
    is_effectively_empty "  \n\t".data = true ∧
    is_effectively_empty "#!/bin/sh".data = true ∧
    is_effectively_empty "#!/bin/sh\n# x".data = true := by
  have hch : ∀ content : List Char, is_effectively_empty content = true ↔
      ∀ line ∈ rustLines content, (rustTrim line).isEmpty = true ∨
        ['#'].isPrefixOf (rustTrim line) = true := by
    intro content
    rw [is_effectively_empty, List.all_eq_true]
    constructor
    · intro h line hm
      simpa using h line hm
    · intro h line hm
      rcases h line hm with h1 | h1 <;> simp [h1]
  refine ⟨hch, ?_, by decide, by decide, by decide, by decide⟩
  intro content line hm h1 h2
  cases hall : is_effectively_empty content
  · rfl
  · exfalso
    rcases (hch content).mp hall line hm with h | h
    · rw [h1] at h; cases h
    · rw [h2] at h; cases h

/-- Witness for C8: a content with a non-comment, non-blank line is not
effectively empty. -/
theorem is_effectively_empty_characterization_witness :
    is_effectively_empty "#!/bin/sh\necho q".data = false :=
  is_effectively_empty_characterization.2.1 "#!/bin/sh\necho q".data "echo q".data
    (by decide) (by decide) (by decide)

theorem rustLinesAux_cons₂ (a b : List Char) (rest : List (List Char)) :
    rustLinesAux (a :: b :: rest) = stripCr a :: rustLinesAux (b :: rest) := rfl

theorem rustLinesAux_single (l : List Char) :
    rustLinesAux [l] = if l.isEmpty then [] else [l] := rfl

theorem caMarker_not_pre_header (l : List Char) :
    caMarker.isPrefixOf ("# git-pair configuration file for branch \x27".data ++ l)
      = false := rfl

theorem filter_three {f : List Char → Bool} {a b c : List Char}
    (ha : f a = false) (hb : f b = false) (hc : f c = true) :
    List.filter f [a, b, c] = [c] := by
  simp [List.filter_cons, ha, hb, hc]

/-- C7: adding a co-author whose serialized line is already contained in the
ledger succeeds with "already exists", mutating nothing and re-installing no
hook; a fresh add appends exactly the serialized line, and an immediately
repeated add of the same `(name, surname, email)` is the no-op case, so the
ledger built from the initial header by two identical adds carries exactly
one record: the trimmed serialized line. -/
theorem add_coauthor_dedup :
    (∀ content name surname email : List Char,
      containsSub (rustTrim (coauthorLine name surname email)) content = true →
        add_coauthor content name surname email = (content, AddOutcome.alreadyExists)) ∧
    (∀ content name surname email : List Char,
      containsSub (rustTrim (coauthorLine name surname email)) content = false →
        add_coauthor content name surname email =
            (content ++ coauthorLine name surname email, AddOutcome.added) ∧
          add_coauthor (content ++ coauthorLine name surname email) name surname email =
            (content ++ coauthorLine name surname email, AddOutcome.alreadyExists)) ∧
    (∀ branch name surname email : List Char, '\n' ∉ branch → '\n' ∉ name →
      '\n' ∉ surname → '\n' ∉ email →
      containsSub (rustTrim (coauthorLine name surname email)) (initial_config branch)
          = false →
      coauthor_lines_of
          (add_coauthor
            (add_coauthor (initial_config branch) name surname email).1
            name surname email).1 =
        [rustTrim (coauthorLine name surname email)]) := by
  have hcontains : ∀ (content name surname email : List Char),
      containsSub (rustTrim (coauthorLine name surname email))
        (content ++ coauthorLine name surname email) = true := by
    intro content name surname email
    rw [containsSub]
    apply findSub_isSome_of_drop (content ++ coauthorLine name surname email)
      content.length
    rw [List.drop_left]
    rw [rustTrim_coauthorLine, coauthorLine_eq]
    exact pre_extend _ (pre_refl _)
  refine ⟨?_, ?_, ?_⟩
  · intro content name surname email h
    simp [add_coauthor, h]
  · intro content name surname email h
    exact ⟨by simp [add_coauthor, h], by simp [add_coauthor, hcontains]⟩
  · intro branch name surname email hbr hn hs he hc
    have h1 : (add_coauthor (initial_config branch) name surname email).1 =
        initial_config branch ++ coauthorLine name surname email := by
      simp [add_coauthor, hc]
    rw [h1]
    have h2 : (add_coauthor
        (initial_config branch ++ coauthorLine name surname email)
        name surname email).1 =
        initial_config branch ++ coauthorLine name surname email := by
      simp [add_coauthor, hcontains]
    rw [h2]
    -- name the trimmed record
    rw [rustTrim_coauthorLine]
    have hL : coauthorLine name surname email =
        ("Co-authored-by: ".data ++ (name ++ " ".data ++ surname) ++ " <".data ++ email
          ++ ['>']) ++ ['\n'] := coauthorLine_eq name surname email
    rw [hL]
    -- split the content into its three lines
    have hsplit : initial_config branch
        ++ (("Co-authored-by: ".data ++ (name ++ " ".data ++ surname) ++ " <".data
            ++ email ++ ['>']) ++ ['\n']) =
        ("# git-pair configuration file for branch \x27".data ++ (branch ++ ['\x27']))
          ++ '\n' :: ("# Co-authors will be listed here".data
          ++ '\n' :: (("Co-authored-by: ".data ++ (name ++ " ".data ++ surname)
            ++ " <".data ++ email ++ ['>']) ++ '\n' :: [])) := by
      rw [initial_config]
      have hlit : ("\x27\n# Co-authors will be listed here\n".data : List Char) =
          '\x27' :: '\n' :: ("# Co-authors will be listed here".data ++ ['\n']) := rfl
      rw [hlit]
      simp [List.append_assoc]
    have hH1nl : '\n' ∉ "# git-pair configuration file for branch \x27".data
        ++ (branch ++ ['\x27']) := by
      have l1 : '\n' ∉ ("# git-pair configuration file for branch \x27".data : List Char) := by
        decide
      have l2 : '\n' ∉ (['\x27'] : List Char) := by decide
      simp [List.mem_append, l1, l2, hbr]
    have hH2nl : '\n' ∉ ("# Co-authors will be listed here".data : List Char) := by decide
    have hXnl : '\n' ∉ ("Co-authored-by: ".data ++ (name ++ " ".data ++ surname)
        ++ " <".data ++ email ++ ['>']) := by
      have l1 : '\n' ∉ ("Co-authored-by: ".data : List Char) := by decide
      have l2 : '\n' ∉ (" ".data : List Char) := by decide
      have l3 : '\n' ∉ (" <".data : List Char) := by decide
      have l4 : '\n' ∉ (['>'] : List Char) := by decide
      simp [List.mem_append, l1, l2, l3, l4, hn, hs, he]
    rw [coauthor_lines_of, rustLines, hsplit]
    rw [linesRaw_append_nl hH1nl, linesRaw_append_nl hH2nl, linesRaw_append_nl hXnl]
    have hnil : linesRaw [] = [[]] := rfl
    rw [hnil, rustLinesAux_cons₂, rustLinesAux_cons₂, rustLinesAux_cons₂,
      show rustLinesAux [[]] = ([] : List (List Char)) from rfl]
    have hs1 : stripCr ("# git-pair configuration file for branch \x27".data
        ++ (branch ++ ['\x27'])) =
        "# git-pair configuration file for branch \x27".data ++ (branch ++ ['\x27']) := by
      rw [← List.append_assoc, stripCr_snoc (by decide), List.append_assoc]
    have hs2 : stripCr ("# Co-authors will be listed here".data : List Char) =
        "# Co-authors will be listed here".data := by decide
    have hs3 : stripCr ("Co-authored-by: ".data ++ (name ++ " ".data ++ surname)
        ++ " <".data ++ email ++ ['>']) =
        "Co-authored-by: ".data ++ (name ++ " ".data ++ surname)
          ++ " <".data ++ email ++ ['>'] := by
      have hsh : "Co-authored-by: ".data ++ (name ++ " ".data ++ surname)
          ++ " <".data ++ email ++ ['>'] =
          ("Co-authored-by: ".data ++ (name ++ " ".data ++ surname)
            ++ " <".data ++ email) ++ ['>'] := by
        simp [List.append_assoc]
      rw [hsh, stripCr_snoc (by decide), ← hsh]
    rw [hs1, hs2, hs3]
    exact filter_three (caMarker_not_pre_header _) rfl (caMarker_pre_line _)

/-- Witness for C7: two identical adds starting from the initial header for
branch `main` leave exactly one record. -/
theorem add_coauthor_dedup_witness :
    coauthor_lines_of
        (add_coauthor
          (add_coauthor (initial_config "main".data) "John".data "Doe".data
            "john@example.com".data).1
          "John".data "Doe".data "john@example.com".data).1 =
      [rustTrim (coauthorLine "John".data "Doe".data "john@example.com".data)] :=
  add_coauthor_dedup.2.2 "main".data "John".data "Doe".data "john@example.com".data
    (by decide) (by decide) (by decide) (by decide) (by decide)

/-- C9: `remove_coauthor` matches records case-insensitively by substring
against the whole serialized line; when that first pass removes nothing it
resolves the identifier as a roster alias to a `(name, email)` pair and
filters by containment of either; it removes every matching record (the
retained list is exactly the filter of the non-matching ones); and it fails
with the not-found error when zero records match after both attempts. -/
theorem remove_coauthor_matching :
    (∀ line ident : List Char,
      containsSub (ident.map Char.toLower) (line.map Char.toLower) = true →
        matches_coauthor line ident = true) ∧
    (∀ (content ident branch : List Char)
      (roster : List (List Char × List Char × List Char)),
      (kept_direct content ident).length ≠ (coauthor_lines_of content).length →
      remove_coauthor content ident branch roster =
        Except.ok (rebuild_config branch (kept_direct content ident),
          (coauthor_lines_of content).length - (kept_direct content ident).length)) ∧
    (∀ (content ident branch : List Char)
      (roster : List (List Char × List Char × List Char)) (al nm em : List Char),
      (kept_direct content ident).length = (coauthor_lines_of content).length →
      roster.find? (fun r => r.1 == ident) = some (al, nm, em) →
      (kept_alias content ident nm em).length ≠ (coauthor_lines_of content).length →
      remove_coauthor content ident branch roster =
        Except.ok (rebuild_config branch (kept_alias content ident nm em),
          (coauthor_lines_of content).length - (kept_alias content ident nm em).length)) ∧
    (∀ (content ident branch : List Char)
      (roster : List (List Char × List Char × List Char)),
      (kept_direct content ident).length = (coauthor_lines_of content).length →
      roster.find? (fun r => r.1 == ident) = none →
      remove_coauthor content ident branch roster =
        Except.error (notFoundMsg ident branch)) ∧
    (∀ (content ident branch : List Char)
      (roster : List (List Char × List Char × List Char)) (al nm em : List Char),
      (kept_direct content ident).length = (coauthor_lines_of content).length →
      roster.find? (fun r => r.1 == ident) = some (al, nm, em) →
      (kept_alias content ident nm em).length = (coauthor_lines_of content).length →
      remove_coauthor content ident branch roster =
        Except.error (aliasNotFoundMsg ident nm em branch)) := by
  refine ⟨?_, ?_, ?_, ?_, ?_⟩
  · intro line ident h
    simp [matches_coauthor, h]
  · intro content ident branch roster h
    rw [kept_direct] at h
    simp only [remove_coauthor, kept_direct]
    rw [if_neg h]
  · intro content ident branch roster al nm em h1 h2 h3
    rw [kept_direct] at h1
    rw [kept_alias, kept_direct] at h3
    simp only [remove_coauthor, kept_alias, kept_direct]
    rw [if_pos h1]
    simp only [h2]
    rw [if_neg h3]
  · intro content ident branch roster h1 h2
    rw [kept_direct] at h1
    simp only [remove_coauthor, kept_direct]
    rw [if_pos h1]
    simp only [h2]
  · intro content ident branch roster al nm em h1 h2 h3
    rw [kept_direct] at h1
    rw [kept_alias, kept_direct] at h3
    simp only [remove_coauthor, kept_alias, kept_direct]
    rw [if_pos h1]
    simp only [h2]
    rw [if_pos h3]

/-- Witness for C9: an email-less identifier matching one of two records
case-insensitively removes exactly that record. -/
theorem remove_coauthor_matching_witness :
    remove_coauthor
        "Co-authored-by: John Doe <john@x.com>\nCo-authored-by: Jane Smith <jane@x.com>\n".data
        "jane".data "main".data [] =
      Except.ok
        (rebuild_config "main".data
          (kept_direct
            "Co-authored-by: John Doe <john@x.com>\nCo-authored-by: Jane Smith <jane@x.com>\n".data
            "jane".data),
         (coauthor_lines_of
            "Co-authored-by: John Doe <john@x.com>\nCo-authored-by: Jane Smith <jane@x.com>\n".data).length -
           (kept_direct
             "Co-authored-by: John Doe <john@x.com>\nCo-authored-by: Jane Smith <jane@x.com>\n".data
             "jane".data).length) :=
  remove_coauthor_matching.2.1
    "Co-authored-by: John Doe <john@x.com>\nCo-authored-by: Jane Smith <jane@x.com>\n".data
    "jane".data "main".data [] (by decide)

/-- C2 (amended): on hook content that contains neither marker and is not
all-whitespace, strip is inverse to merge up to whitespace normalization at
the splice boundary: merging the generated section and then stripping it
returns exactly the trim-end of the original content. -/
theorem merge_strip_inverse (existing : List Char)
    (hb : findSub beginMarker existing = none)
    (he : findSub endMarker existing = none)
    (hne : (rustTrim existing).isEmpty = false) :
    merge_git_pair_section existing gitPairSection =
        Except.ok (rustTrimEnd existing ++ "\n\n".data ++ gitPairSection) ∧
    remove_git_pair_section (rustTrimEnd existing ++ "\n\n".data ++ gitPairSection) =
        some (rustTrimEnd existing) := by
  constructor
  · simp [merge_git_pair_section, hb, hne]
  · obtain ⟨t, ht⟩ := rustTrimEnd_front existing
    have hbT : findSub beginMarker (rustTrimEnd existing) = none :=
      findSub_append_none (ht ▸ hb)
    have heT : findSub endMarker (rustTrimEnd existing) = none :=
      findSub_append_none (ht ▸ he)
    have hshape : rustTrimEnd existing ++ "\n\n".data ++ gitPairSection =
        rustTrimEnd existing ++ '\n' :: ('\n' :: gitPairSection) := by simp
    rw [hshape]
    have hfb : findSub beginMarker
        (rustTrimEnd existing ++ '\n' :: ('\n' :: gitPairSection)) =
        some ((rustTrimEnd existing).length + 2) := by
      rw [findSub_append_nl nl_not_mem_beginMarker _ _ hbT, findSub_begin_cons_nl,
        findSub_begin_cons_nl, gps_starts_with_begin]
      simp only [Option.map_some']
      congr 1
      omega
    have hfe : findSub endMarker
        (rustTrimEnd existing ++ '\n' :: ('\n' :: gitPairSection)) =
        some ((rustTrimEnd existing).length + 851) := by
      rw [findSub_append_nl nl_not_mem_endMarker _ _ heT, findSub_end_cons_nl,
        findSub_end_cons_nl, gps_end_pos]
      simp only [Option.map_some']
      congr 1
      omega
    have htake : (rustTrimEnd existing ++ '\n' :: ('\n' :: gitPairSection)).take
        ((rustTrimEnd existing).length + 2) = rustTrimEnd existing ++ ['\n', '\n'] := by
      have h1 : rustTrimEnd existing ++ '\n' :: ('\n' :: gitPairSection) =
          (rustTrimEnd existing ++ ['\n', '\n']) ++ gitPairSection := by simp
      rw [h1]
      exact List.take_left' (by simp)
    have hdrop : (rustTrimEnd existing ++ '\n' :: ('\n' :: gitPairSection)).drop
        ((rustTrimEnd existing).length + 851 + endMarker.length) = [] := by
      have h1 : rustTrimEnd existing ++ '\n' :: ('\n' :: gitPairSection) =
          (rustTrimEnd existing ++ ['\n', '\n']) ++ gitPairSection := by simp
      rw [h1]
      have hem : endMarker.length = 14 := rfl
      have hlen : (rustTrimEnd existing ++ ['\n', '\n']).length =
          (rustTrimEnd existing).length + 2 := by simp
      have h2 : (rustTrimEnd existing).length + 851 + endMarker.length =
          (rustTrimEnd existing ++ ['\n', '\n']).length + 863 := by
        rw [hem, hlen]
      rw [h2, ← List.drop_drop, List.drop_left]
      rfl
    have hbt : rustTrimEnd (rustTrimEnd existing ++ ['\n', '\n']) =
        rustTrimEnd existing := by
      have h1 : rustTrimEnd existing ++ ['\n', '\n'] =
          (rustTrimEnd existing ++ ['\n']) ++ ['\n'] := by simp
      rw [h1, rustTrimEnd_snoc_ws (by decide), rustTrimEnd_snoc_ws (by decide)]
      exact rustTrimEnd_idem existing
    have hTne : (rustTrimEnd existing).isEmpty = false := rustTrimEnd_ne_nil hne
    simp only [remove_git_pair_section, hfb, hfe, htake, hdrop, hbt]
    simp [rustTrimStart, hTne]

/-- Witness for the amended C2. -/
theorem merge_strip_inverse_witness :
    merge_git_pair_section "echo hi".data gitPairSection =
        Except.ok (rustTrimEnd "echo hi".data ++ "\n\n".data ++ gitPairSection) ∧
    remove_git_pair_section
        (rustTrimEnd "echo hi".data ++ "\n\n".data ++ gitPairSection) =
      some (rustTrimEnd "echo hi".data) :=
  merge_strip_inverse "echo hi".data (by decide) (by decide) (by decide)

/-- Counterexample to C2 as stated: for the empty pre-merge content, merge
inserts a shebang line, and stripping the merged result returns
`"#!/bin/sh"`, which differs from the pre-merge content by a whole
non-whitespace line, not by whitespace normalization at the splice
boundary. -/
theorem merge_strip_inverse_cex :
    merge_git_pair_section [] gitPairSection =
        Except.ok ("#!/bin/sh\n".data ++ gitPairSection) ∧
    remove_git_pair_section ("#!/bin/sh\n".data ++ gitPairSection) =
        some "#!/bin/sh".data ∧
    ("#!/bin/sh".data : List Char) ≠ rustTrim [] := by
  exact ⟨rfl, rfl, by decide⟩
